import Mathlib

/-!
Verification development for the poolcore block-template assembler
(`src/include/blockmaker/btcLike.h`).  The C++ code is shallowly embedded:
machine integers become `Nat`/`Int` with explicit wrap-around where it
matters, byte buffers become `List Nat` (each element a byte value),
fallible code returns `Option`, and the mutable `Work` object becomes a
record threaded through the functions.

Functions of the repository whose bodies are not part of the provided
sources (they are only declared in `btcLike.h`, e.g. `addTransaction`,
`transactionChecker`, the serializer in `serialize.h`) are modelled from
the specification; each such definition carries a doc comment starting
with `Modelled from the spec:`.
-/

namespace BtcLike

/-- Bytes of a buffer: `zeros n` is `n` zero bytes. -/
def zeros (n : Nat) : List Nat := List.replicate n 0

/-- Value of the hex digit character `c` (0 for non-hex characters, matching
bit-trick style converters that do not signal errors). -/
def hexDigitVal (c : Char) : Nat :=
  if '0' ≤ c ∧ c ≤ '9' then c.toNat - '0'.toNat
  else if 'a' ≤ c ∧ c ≤ 'f' then c.toNat - 'a'.toNat + 10
  else if 'A' ≤ c ∧ c ≤ 'F' then c.toNat - 'A'.toNat + 10
  else 0

/-- Modelled from the spec: `hex2bin` (declared in the missing `serialize.h`
helpers) converts hex character pairs to bytes; an odd trailing nibble is
dropped because the caller reserves `size/2` output bytes. -/
def hexToBytes : List Char → List Nat
  | c1 :: c2 :: rest => (hexDigitVal c1 * 16 + hexDigitVal c2) :: hexToBytes rest
  | _ => []

/-- Hex string to bytes. -/
def hexStr (s : String) : List Nat := hexToBytes s.data

/-- The empty string (the `GetString()` result of an absent member is never
read on the paths modelled here; this is the `Option.getD` default). -/
def emptyString : String := String.mk []

/-- The lowercase hex alphabet. -/
def hexAlphabet : List Char := "0123456789abcdef".data

/-- Lowercase hex digit for a nibble. -/
def hexDigitChar (n : Nat) : Char := hexAlphabet.getD n '0'

/-- Modelled from the spec: `bin2hexLowerCase` (missing `serialize.h` helper)
renders each byte as two lowercase hex digits. -/
def bin2hexChars : List Nat → List Char
  | [] => []
  | b :: r => hexDigitChar (b / 16 % 16) :: hexDigitChar (b % 16) :: bin2hexChars r

/-- String form of `bin2hexChars`. -/
def bin2hexLowerCase (l : List Nat) : String := ⟨bin2hexChars l⟩

/-- Modelled from the spec: `uint256::SetHex` parses a big-endian display hex
string into the 32 little-endian bytes of a `uint256` (reversed byte order,
zero-padded). -/
def setHex (s : String) : List Nat :=
  (((hexToBytes s.data).reverse) ++ zeros 32).take 32

/-- Display hex of a 32-byte little-endian hash (`uint256::GetHex`):
reversed byte order, lowercase. -/
def getHex (b : List Nat) : String := bin2hexLowerCase b.reverse

/-- Little-endian 32-bit serialization of `n` (masked to 4 bytes). -/
def le32 (n : Nat) : List Nat :=
  [n % 256, n / 256 % 256, n / 2 ^ 16 % 256, n / 2 ^ 24 % 256]

/-- Little-endian 64-bit serialization of `n` (masked to 8 bytes). -/
def le64 (n : Nat) : List Nat := le32 (n % 2 ^ 32) ++ le32 (n / 2 ^ 32 % 2 ^ 32)

/-- Two's-complement 64-bit little-endian serialization of an `i64`. -/
def le64i (v : Int) : List Nat := le64 ((v % (2 ^ 64 : Int)).toNat)

/-- Modelled from the spec: Bitcoin CompactSize encoding
(`< 0xFD` one byte; `≤ 0xFFFF` `0xFD`+u16le; `≤ 0xFFFFFFFF` `0xFE`+u32le;
else `0xFF`+u64le). -/
def compactSize (n : Nat) : List Nat :=
  if n < 0xFD then [n]
  else if n ≤ 0xFFFF then 0xFD :: [n % 256, n / 256 % 256]
  else if n ≤ 0xFFFFFFFF then 0xFE :: le32 n
  else 0xFF :: le64 n

/-- Number represented by little-endian bytes. -/
def fromLE : List Nat → Nat
  | [] => 0
  | b :: t => b + 256 * fromLE t

/-- Transaction input (`Proto::TxIn` of the BTC-family chains). -/
structure TxIn where
  previousOutputHash : List Nat
  previousOutputIndex : Nat
  scriptSig : List Nat
  sequence : Nat
  witnessStack : List (List Nat)
deriving DecidableEq, Repr, Inhabited

/-- Transaction output (`Proto::TxOut`). -/
structure TxOut where
  value : Int
  pkScript : List Nat
deriving DecidableEq, Repr, Inhabited

/-- Transaction (`Proto::Transaction`). -/
structure Transaction where
  version : Nat
  txIn : List TxIn
  txOut : List TxOut
  lockTime : Nat
deriving DecidableEq, Repr, Inhabited

/-- Serialization of one input in legacy layout (witness stack lives
elsewhere in witness form). -/
def serTxIn (i : TxIn) : List Nat :=
  i.previousOutputHash ++ le32 i.previousOutputIndex ++
    compactSize i.scriptSig.length ++ i.scriptSig ++ le32 i.sequence

/-- Serialization of one output. -/
def serTxOut (o : TxOut) : List Nat :=
  le64i o.value ++ compactSize o.pkScript.length ++ o.pkScript

/-- Serialization of one input's witness stack. -/
def serWitnessStack (ws : List (List Nat)) : List Nat :=
  compactSize ws.length ++ (ws.map (fun e => compactSize e.length ++ e)).flatten

/-- Modelled from the spec: transaction serialization (`BTC::Io<Transaction>
::serialize`, body in the missing `serialize.h`/`btc.h`). Legacy:
`version ‖ CompactSize(|txIn|) ‖ txIns ‖ CompactSize(|txOut|) ‖ txOuts ‖
lockTime`; witness inserts the `0x00 0x01` marker/flag after `version` and
the per-input witness stacks before `lockTime`. -/
def serializeTx (tx : Transaction) (withWitness : Bool) : List Nat :=
  if withWitness then
    le32 tx.version ++ [0, 1] ++ compactSize tx.txIn.length ++
      (tx.txIn.map serTxIn).flatten ++ compactSize tx.txOut.length ++
      (tx.txOut.map serTxOut).flatten ++
      (tx.txIn.map (fun i => serWitnessStack i.witnessStack)).flatten ++
      le32 tx.lockTime
  else
    le32 tx.version ++ compactSize tx.txIn.length ++
      (tx.txIn.map serTxIn).flatten ++ compactSize tx.txOut.length ++
      (tx.txOut.map serTxOut).flatten ++ le32 tx.lockTime

/-- Modelled from the spec: `Proto::Transaction::getFirstScriptSigOffset`
(body in the missing `btc.h`) returns the byte position of the first input's
scriptSig content (after its CompactSize length byte) inside the transaction
serialized in the requested form, computed from the transaction object's
current state. -/
def getFirstScriptSigOffset (tx : Transaction) (withWitness : Bool) : Nat :=
  (if withWitness then 4 + 2 else 4) + (compactSize tx.txIn.length).length +
    32 + 4 +
    (compactSize (match tx.txIn with
      | [] => 0
      | i :: _ => i.scriptSig.length)).length

/-- Minimal little-endian byte expansion, fuelled so that it reduces by
iota (the fuel only needs to be at least the byte count). -/
def minimalLEAux : Nat → Nat → List Nat
  | 0, _ => []
  | fuel + 1, h => if h = 0 then [] else (h % 256) :: minimalLEAux fuel (h / 256)

/-- Minimal little-endian byte expansion of a number (no leading zero
bytes). -/
def minimalLE (h : Nat) : List Nat := minimalLEAux h h

/-- Modelled from the spec: `BTC::serializeForCoinbase` (BIP-34 height
encoding, missing `serialize.h`): a length byte followed by the height in
little-endian with leading zero bytes dropped. -/
def serializeForCoinbase (h : Nat) : List Nat :=
  (minimalLE h).length :: minimalLE h

/-! ### Transaction decoder

The deserializer `BTC::unserialize` lives in the missing `serialize.h` /
`btc.h`; it is modelled from the spec's two serialization layouts (§3).
Readers take the remaining byte list and return the parsed value together
with the rest, or `none` when the stream is exhausted (the stream's `eof`
flag in the C++). -/

/-- Read `n` bytes. -/
def readBytesN (n : Nat) (s : List Nat) : Option (List Nat × List Nat) :=
  if n ≤ s.length then some (s.take n, s.drop n) else none

/-- Read a little-endian u32. -/
def readU32 (s : List Nat) : Option (Nat × List Nat) :=
  (readBytesN 4 s).map (fun p => (fromLE p.1, p.2))

/-- Modelled from the spec: CompactSize decoding. -/
def readCompactSize (s : List Nat) : Option (Nat × List Nat) :=
  match s with
  | [] => none
  | b :: r =>
    if b < 0xFD then some (b, r)
    else if b = 0xFD then (readBytesN 2 r).map (fun p => (fromLE p.1, p.2))
    else if b = 0xFE then (readBytesN 4 r).map (fun p => (fromLE p.1, p.2))
    else (readBytesN 8 r).map (fun p => (fromLE p.1, p.2))

/-- Read a CompactSize-prefixed byte string. -/
def readVarBytes (s : List Nat) : Option (List Nat × List Nat) :=
  match readCompactSize s with
  | none => none
  | some (n, r) => readBytesN n r

/-- Read `n` items with the reader `rd`. -/
def readN {α : Type} (rd : List Nat → Option (α × List Nat)) :
    Nat → List Nat → Option (List α × List Nat)
  | 0, s => some ([], s)
  | n + 1, s =>
    match rd s with
    | none => none
    | some (a, s1) =>
      match readN rd n s1 with
      | none => none
      | some (as, s2) => some (a :: as, s2)

/-- Read one input (legacy layout; witness stack filled in later). -/
def readTxIn (s : List Nat) : Option (TxIn × List Nat) :=
  match readBytesN 32 s with
  | none => none
  | some (h, s1) =>
    match readU32 s1 with
    | none => none
    | some (idx, s2) =>
      match readVarBytes s2 with
      | none => none
      | some (ss, s3) =>
        match readU32 s3 with
        | none => none
        | some (seq, s4) =>
          some ({ previousOutputHash := h, previousOutputIndex := idx,
                  scriptSig := ss, sequence := seq, witnessStack := [] }, s4)

/-- Read one output; the value is a two's-complement i64. -/
def readTxOut (s : List Nat) : Option (TxOut × List Nat) :=
  match readBytesN 8 s with
  | none => none
  | some (v, s1) =>
    match readVarBytes s1 with
    | none => none
    | some (pk, s2) =>
      let n := fromLE v
      some ({ value := if n < 2 ^ 63 then (n : Int) else (n : Int) - 2 ^ 64,
              pkScript := pk }, s2)

/-- Read one input's witness stack. -/
def readWitnessStack (s : List Nat) : Option (List (List Nat) × List Nat) :=
  match readCompactSize s with
  | none => none
  | some (n, r) => readN readVarBytes n r

/-- Modelled from the spec: transaction deserialization. After the version,
the `0x00 0x01` marker/flag selects the witness layout, otherwise the legacy
layout is read. -/
def decodeTx (s : List Nat) : Option (Transaction × List Nat) :=
  match readU32 s with
  | none => none
  | some (v, s1) =>
    match s1 with
    | 0 :: 1 :: s2 =>
      (match readCompactSize s2 with
       | none => none
       | some (nIn, s3) =>
         match readN readTxIn nIn s3 with
         | none => none
         | some (ins, s4) =>
           match readCompactSize s4 with
           | none => none
           | some (nOut, s5) =>
             match readN readTxOut nOut s5 with
             | none => none
             | some (outs, s6) =>
               match readN readWitnessStack ins.length s6 with
               | none => none
               | some (wStacks, s7) =>
                 match readU32 s7 with
                 | none => none
                 | some (lock, s8) =>
                   let ins2 := List.zipWith
                     (fun i w => { i with witnessStack := w }) ins wStacks
                   some ({ version := v, txIn := ins2,
                           txOut := outs, lockTime := lock }, s8))
    | _ =>
      match readCompactSize s1 with
      | none => none
      | some (nIn, s3) =>
        match readN readTxIn nIn s3 with
        | none => none
        | some (ins, s4) =>
          match readCompactSize s4 with
          | none => none
          | some (nOut, s5) =>
            match readN readTxOut nOut s5 with
            | none => none
            | some (outs, s6) =>
              match readU32 s6 with
              | none => none
              | some (lock, s7) =>
                some ({ version := v, txIn := ins, txOut := outs,
                        lockTime := lock }, s7)

/-- Successful decode that consumes the whole buffer: the source's
`!(stream.eof() || stream.remaining())` condition. -/
def decodeTxAll (s : List Nat) : Option Transaction :=
  match decodeTx s with
  | none => none
  | some (tx, rest) => if rest = [] then some tx else none

/-! ### Transaction selection (`transactionFilter`, btcLike.h lines 68-136) -/

/-- One JSON entry of the template's `transactions` array.  An `Option`
field is `none` exactly when the member is missing or has the wrong JSON
type (the source's `!HasMember(..) || !Is..()` checks). -/
structure TxJson where
  data : Option String
  txid : Option String
  fee : Option Int
  hash : Option String := none
deriving DecidableEq, Repr, Inhabited

/-- `TxData` of btcLike.h (the hex payload size is the string length). -/
structure TxData where
  HexData : String
  TxId : List Nat
  WitnessHash : List Nat
deriving DecidableEq, Repr, Inhabited

/-- `TxTree` entry of btcLike.h: `DependsOn` is `none` for the C++ sentinel
`std::numeric_limits<size_t>::max()`. -/
structure TxTreeE where
  Data : TxData
  Fee : Int
  DependsOn : Option Nat := none
  Visited : Bool := false
deriving DecidableEq, Repr, Inhabited

/-- The per-entry field validation of the filter's first pass
(data/txid present and strings, fee present and Int64). -/
def fieldsOk (t : TxJson) : Bool :=
  t.data.isSome && t.txid.isSome && t.fee.isSome

/-- `TxData` built from a validated entry (first pass, lines 84-88):
`WitnessHash` stays the zero value when `hash` is absent. -/
def mkTxData (t : TxJson) : TxData :=
  { HexData := t.data.getD emptyString
  , TxId := setHex (t.txid.getD emptyString)
  , WitnessHash :=
      match t.hash with
      | some h => setHex h
      | none => zeros 32 }

/-- First pass of `transactionFilter` (lines 75-93): validate fields, build
the tree entries and the txid → index map, and decrement the reward by every
entry's fee.  On a malformed entry it stops, returning `none` together with
the reward decremented so far. -/
def pass1 : List TxJson → Nat → List TxTreeE → List (List Nat × Nat) → Int →
    Option (List TxTreeE × List (List Nat × Nat)) × Int
  | [], _, tree, m, r => (some (tree, m), r)
  | t :: rest, i, tree, m, r =>
    if fieldsOk t then
      let e : TxTreeE := { Data := mkTxData t, Fee := t.fee.getD 0 }
      pass1 rest (i + 1) (tree ++ [e]) (m ++ [(e.Data.TxId, i)]) (r - e.Fee)
    else (none, r)

/-- Lookup in the txid → index map; a later insertion for the same key
overwrites an earlier one (`std::unordered_map::operator[]`). -/
def mapFind (m : List (List Nat × Nat)) (k : List Nat) : Option Nat :=
  (m.reverse.find? (fun p => decide (p.1 = k))).map (fun p => p.2)

/-- The dependency loop of the second pass (lines 115-119): for each input
in order, when its `previousOutputHash` is in the map the entry's
`DependsOn` is overwritten with the mapped index. -/
def computeDependsOn (m : List (List Nat × Nat)) (ins : List TxIn) :
    Option Nat :=
  ins.foldl
    (fun acc txin =>
      match mapFind m txin.previousOutputHash with
      | some j => some j
      | none => acc)
    none

/-- One entry of the second pass (lines 98-119): re-check the `data` member,
convert hex to binary, decode, require the whole buffer consumed, and
compute the entry's dependency. `none` means the pass returns false. -/
def txDeps (m : List (List Nat × Nat)) (t : TxJson) : Option (Option Nat) :=
  match t.data with
  | none => none
  | some s =>
    match decodeTxAll (hexToBytes s.data) with
    | none => none
    | some tx => some (computeDependsOn m tx.txIn)

/-- Second pass of `transactionFilter` (lines 97-120) over all entries. -/
def pass2 (m : List (List Nat × Nat)) : List TxJson → Option (List (Option Nat))
  | [] => some []
  | t :: rest =>
    match txDeps m t with
    | none => none
    | some d => (pass2 m rest).map (fun ds => d :: ds)

/-- Replace element `i` of the tree, if present. -/
def modifyAt (tree : List TxTreeE) (i : Nat) (f : TxTreeE → TxTreeE) :
    List TxTreeE :=
  match tree[i]? with
  | some e => tree.set i (f e)
  | none => tree

/-- Modelled from the spec: `addTransaction` (declared at btcLike.h line 59,
body not in the sources).  Per §4.D: an already-visited entry succeeds; a
dependency is added recursively first and its refusal refuses this entry;
when the result has reached the cap the entry is refused; otherwise the
entry's data is pushed and the entry marked visited.  The spec leaves the
`blockReward` pointer untouched (fees of dropped transactions are never
added back).  The fuel bounds the in-template dependency chain; it is called
with more fuel than there are entries, so it can only run out on a cyclic
(hence malformed) template. -/
def addTransaction : Nat → List TxTreeE → Nat → Nat → List TxData →
    Bool × List TxTreeE × List TxData
  | 0, tree, _, _, result => (false, tree, result)
  | fuel + 1, tree, i, limit, result =>
    match tree[i]? with
    | none => (false, tree, result)
    | some e =>
      if e.Visited then (true, tree, result)
      else
        let rec1 :=
          match e.DependsOn with
          | some j => addTransaction fuel tree j limit result
          | none => (true, tree, result)
        match rec1 with
        | (false, tree1, result1) => (false, tree1, result1)
        | (true, tree1, result1) =>
          if result1.length = limit then (false, tree1, result1)
          else (true, modifyAt tree1 i (fun x => { x with Visited := true }),
                result1 ++ [e.Data])

/-- The selection loop (lines 122-126): try each entry in template order and
stop at the first refusal. -/
def selectLoop (limit : Nat) : Nat → Nat → List TxTreeE → List TxData →
    List TxData
  | 0, _, _, result => result
  | n + 1, i, tree, result =>
    match addTransaction (tree.length + 1) tree i limit result with
    | (true, tree1, result1) => selectLoop limit n (i + 1) tree1 result1
    | (false, _, result1) => result1

/-- Lexicographic order on character lists by code point. -/
def charListLe : List Char → List Char → Bool
  | [], _ => true
  | _ :: _, [] => false
  | x :: xs, y :: ys =>
    if x.toNat < y.toNat then true
    else if y.toNat < x.toNat then false
    else charListLe xs ys

/-- Boolean string order used for the BCHN/BCHABC sort (`std::sort` with
`l.TxId.GetHex() < r.TxId.GetHex()`). -/
def hexLe (a b : String) : Bool :=
  charListLe a.data b.data

/-- `transactionFilter` (btcLike.h lines 68-136).  Returns the C++ boolean,
the `result` output vector (empty when a pass failed, possibly partial when
the cap was hit) and the final value of `*blockReward`. -/
def transactionFilter (txs : List TxJson) (txNumLimit : Nat) (blockReward : Int)
    (sortByHash : Bool) : Bool × List TxData × Int :=
  match pass1 txs 0 [] [] blockReward with
  | (none, r1) => (false, [], r1)
  | (some (tree, m), r1) =>
    match pass2 m txs with
    | none => (false, [], r1)
    | some deps =>
      let tree1 := List.zipWith (fun e d => { e with DependsOn := d }) tree deps
      let result := selectLoop txNumLimit txs.length 0 tree1 []
      let result1 :=
        if sortByHash then
          result.mergeSort (fun l r => hexLe (getHex l.TxId) (getHex r.TxId))
        else result
      (true, result1, r1)

/-- Modelled from the spec: `transactionChecker` (declared at btcLike.h line
60, body not in the sources).  Per §4.D it validates each entry's fields and
copies all transactions without dependency analysis, and per §7 an entry that
fails to decode or leaves bytes unread makes it return false; entries
processed before the failure remain in the output vector. -/
def transactionChecker : List TxJson → Bool × List TxData
  | [] => (true, [])
  | t :: rest =>
    if fieldsOk t then
      match decodeTxAll (hexToBytes (t.data.getD emptyString).data) with
      | none => (false, [])
      | some _ =>
        match transactionChecker rest with
        | (ok, res) => (ok, mkTxData t :: res)
    else (false, [])

/-! ### The Work object (`WorkTy`, btcLike.h lines 138-400) -/

/-- `MiningConfig` fields consumed by the core. -/
structure MiningConfig where
  TxNumLimit : Nat
  FixedExtraNonceSize : Nat
  MutableExtraNonceSize : Nat
deriving DecidableEq, Repr, Inhabited

/-- `CoinbaseTx` of btcLike.h: serialized bytes plus the two absolute
offsets. -/
structure CoinbaseTx where
  Data : List Nat
  ExtraDataOffset : Nat
  ExtraNonceOffset : Nat
deriving DecidableEq, Repr, Inhabited

/-- `sizeof(Proto::AddressTy)` for the BTC family (uint160, P2PKH hash). -/
def addressSize : Nat := 20

/-- `Proto::BlockHeader`: hashes are 32 little-endian bytes. -/
structure BlockHeader where
  nVersion : Nat
  hashPrevBlock : List Nat
  hashMerkleRoot : List Nat
  nTime : Nat
  nBits : Nat
  nNonce : Nat
deriving DecidableEq, Repr, Inhabited

/-- Modelled from the spec: 80-byte little-endian header serialization
(`BTC::serialize` of a header, §3). -/
def serializeHeader (h : BlockHeader) : List Nat :=
  le32 h.nVersion ++ h.hashPrevBlock ++ h.hashMerkleRoot ++
    le32 h.nTime ++ le32 h.nBits ++ le32 h.nNonce

/-- The mutable state of a `WorkTy` object.  `Inited` models the C++ field
`Initialized_` (renamed here); `Backend_` is `true` when the backend pointer
is non-null. -/
structure WorkState where
  Header : BlockHeader
  JobVersion : Nat
  SegwitEnabled : Bool
  MiningAddress_ : List Nat
  CoinbaseMessage_ : List Nat
  DevFee : Int
  DevScriptPubKey : List Nat
  WitnessCommitment : List Nat
  CBTxLegacy_ : CoinbaseTx
  CBTxWitness_ : CoinbaseTx
  TxHexData : String
  TxNum_ : Nat
  Height_ : Nat
  BlockReward_ : Int
  Backend_ : Bool
  Inited : Bool
deriving DecidableEq, Repr, Inhabited

/-- The `WorkTy` constructor (btcLike.h lines 141-147): the base class
stores the backend pointer; `Initialized_` (here `Inited`) is the address
size check; the address bytes are copied only when it passes (otherwise the
zero-initialized `AddressTy` remains). -/
def workTyCtor (hasBackend : Bool) (miningAddress : List Nat)
    (coinbaseMessage : List Nat) : WorkState :=
  let ok := miningAddress.length = addressSize
  { Header := default
  , JobVersion := 0
  , SegwitEnabled := false
  , MiningAddress_ := if ok then miningAddress else zeros addressSize
  , CoinbaseMessage_ := coinbaseMessage
  , DevFee := 0
  , DevScriptPubKey := []
  , WitnessCommitment := []
  , CBTxLegacy_ := default
  , CBTxWitness_ := default
  , TxHexData := ""
  , TxNum_ := 0
  , Height_ := 0
  , BlockReward_ := 0
  , Backend_ := hasBackend
  , Inited := ok }

/-- `ready()` (btcLike.h line 151): `Backend_ != nullptr`. -/
def ready (w : WorkState) : Bool := w.Backend_

/-- The P2PKH payout script written by `buildCoinbaseTx` (lines 317-324). -/
def p2pkhPkScript (addr : List Nat) : List Nat :=
  0x76 :: 0xA9 :: addressSize :: addr ++ [0x88, 0xAC]

/-- `buildCoinbaseTx` (btcLike.h lines 270-344).  Returns the in-memory
coinbase transaction and the two serialized forms with offsets.  Exactly as
in the source, the two `getFirstScriptSigOffset` calls happen while
`txIn[0].scriptSig` is still empty (it is assigned from the scratch stream
afterwards, line 307), and the extranonce reservation appends
`FixedExtraNonceSize + MutableExtraNonceSize` zero bytes. -/
def buildCoinbaseTx (w : WorkState) (coinbaseData : List Nat)
    (miningCfg : MiningConfig) : Transaction × CoinbaseTx × CoinbaseTx :=
  let heightEnc := serializeForCoinbase w.Height_
  let extraDataLocal := heightEnc.length
  let scriptsigBase := heightEnc ++ coinbaseData ++ w.CoinbaseMessage_
  let extraNonceLocal := scriptsigBase.length
  let scriptSig := scriptsigBase ++
    zeros (miningCfg.FixedExtraNonceSize + miningCfg.MutableExtraNonceSize)
  let txIn0 : TxIn :=
    { previousOutputHash := zeros 32
    , previousOutputIndex := 0xFFFFFFFF
    , scriptSig := []
    , sequence := 0xFFFFFFFF
    , witnessStack := if w.SegwitEnabled then [zeros 32] else [] }
  let txAtOffsets : Transaction :=
    { version := if w.SegwitEnabled then 2 else 1
    , txIn := [txIn0]
    , txOut := []
    , lockTime := 0 }
  let legacyNonceOff := extraNonceLocal + getFirstScriptSigOffset txAtOffsets false
  let legacyDataOff := extraDataLocal + getFirstScriptSigOffset txAtOffsets false
  let witnessNonceOff := extraNonceLocal + getFirstScriptSigOffset txAtOffsets true
  let witnessDataOff := extraDataLocal + getFirstScriptSigOffset txAtOffsets true
  let payout : TxOut :=
    { value := w.BlockReward_, pkScript := p2pkhPkScript w.MiningAddress_ }
  let devOut : List TxOut :=
    if w.DevFee ≠ 0 then [{ value := w.DevFee, pkScript := w.DevScriptPubKey }]
    else []
  let wcOut : List TxOut :=
    if w.SegwitEnabled then [{ value := 0, pkScript := w.WitnessCommitment }]
    else []
  let coinbaseTx : Transaction :=
    { txAtOffsets with
      txIn := [{ txIn0 with scriptSig := scriptSig }]
      txOut := payout :: devOut ++ wcOut }
  ( coinbaseTx
  , { Data := serializeTx coinbaseTx false
    , ExtraDataOffset := legacyDataOff
    , ExtraNonceOffset := legacyNonceOff }
  , { Data := serializeTx coinbaseTx true
    , ExtraDataOffset := witnessDataOff
    , ExtraNonceOffset := witnessNonceOff } )

/-- `mutate()` (btcLike.h lines 155-158): refresh `nTime` with the wall
clock; rebuilding the notify payload is external to the core. -/
def mutate (w : WorkState) (now : Nat) : WorkState :=
  { w with Header := { w.Header with nTime := now % 2 ^ 32 } }

/-- `buildBlockImpl` (btcLike.h lines 361-380): hex of header plus
CompactSize of `TxNum_ + 1` in one stream, then hex of the witness coinbase,
then the pre-hexed transaction payloads. -/
def buildBlockImpl (w : WorkState) : String :=
  bin2hexLowerCase (serializeHeader w.Header ++ compactSize (w.TxNum_ + 1)) ++
    bin2hexLowerCase w.CBTxWitness_.Data ++ w.TxHexData

/-! ### `loadFromTemplate` (btcLike.h lines 170-258) -/

/-- The template's `result` object after the source's presence and JSON-type
checks on the top-level fields (lines 186-212); a document failing them
makes `loadFromTemplate` return false before any state of interest changes,
so the claims below quantify over validated documents.  The optional graft
objects carry the fields the spec names; for `minerfund` the script derived
from `addresses[0]` is carried as bytes (the address decoding itself is
outside the provided sources and not needed by any claim). -/
structure TemplateDoc where
  height : Nat
  version : Nat
  previousblockhash : String
  curtime : Nat
  bits : String
  coinbasevalue : Int
  transactions : List TxJson
  defaultWitnessCommitment : Option String := none
  coinbasedevreward : Option (Int × String) := none
  minerfund : Option (Int × List Nat) := none
deriving DecidableEq, Repr, Inhabited

/-- Modelled from the spec: `isSegwitEnabled` (declared at btcLike.h line
61) — SegWit is enabled iff any template transaction reports a `hash`
distinct from its `txid` (§4.F). -/
def isSegwitEnabled (txs : List TxJson) : Bool :=
  txs.any (fun t =>
    match t.hash with
    | some h => decide (setHex h ≠ setHex (t.txid.getD emptyString))
    | none => false)

/-- Modelled from the spec: `processCoinbaseDevReward` (FreeCash, §External
grafts): when `coinbasedevreward` is present read `value` and
`scriptpubkey` hex into the dev fee and dev script. -/
def processCoinbaseDevReward (tmpl : TemplateDoc) (devFee : Int)
    (devScript : List Nat) : Int × List Nat :=
  match tmpl.coinbasedevreward with
  | some (v, spk) => (v, hexStr spk)
  | none => (devFee, devScript)

/-- Modelled from the spec: `processMinerFund` (BCHA, §External grafts):
when `minerfund` is present set the dev fee to `minimumvalue`, decrement
the block reward by it and take the script derived from the first
address. -/
def processMinerFund (tmpl : TemplateDoc) (blockReward : Int) (devFee : Int)
    (devScript : List Nat) : Int × Int × List Nat :=
  match tmpl.minerfund with
  | some (mv, script) => (blockReward - mv, mv, script)
  | none => (blockReward, devFee, devScript)

/-- One level of the Merkle tree: pair neighbours, duplicating the last
node of an odd level. -/
def merklePairUp (hashF : List Nat → List Nat) :
    List (List Nat) → List (List Nat)
  | a :: b :: rest => hashF (a ++ b) :: merklePairUp hashF rest
  | [a] => [hashF (a ++ a)]
  | [] => []

/-- Merkle root with explicit fuel (the list at least halves each level). -/
def merkleRootF (hashF : List Nat → List Nat) :
    Nat → List (List Nat) → List Nat
  | _, [] => zeros 32
  | _, [x] => x
  | 0, l => l.headD (zeros 32)
  | fuel + 1, l => merkleRootF hashF fuel (merklePairUp hashF l)

/-- Modelled from the spec: `calculateWitnessCommitment` (declared at
btcLike.h line 64).  Per §4.F: when the template carries
`default_witness_commitment` (and the transaction set was not filtered) it
is used verbatim; otherwise the witness Merkle root over the zero coinbase
placeholder and the selected transactions' witness hashes is combined with
the 32-byte zero reserved value.  SHA-256d is not in the provided sources
and is taken as the parameter `hashF`. -/
def calculateWitnessCommitment (hashF : List Nat → List Nat)
    (tmpl : TemplateDoc) (txFilter : Bool) (processed : List TxData) :
    Option (List Nat) :=
  match tmpl.defaultWitnessCommitment, txFilter with
  | some s, false => some (hexStr s)
  | _, _ =>
    let leaves := zeros 32 :: processed.map (fun d => d.WitnessHash)
    let root := merkleRootF hashF leaves.length leaves
    some ([0x6A, 0x24, 0xaa, 0x21, 0xa9, 0xed] ++ hashF (root ++ zeros 32))

/-- Modelled from the spec: `collectTransactions` (declared at btcLike.h
line 65) concatenates the selected transactions' hex payloads and reports
their number; the Merkle-path output is not needed by any claim and is
omitted. -/
def collectTransactions (processed : List TxData) : String × Nat :=
  (String.join (processed.map (fun d => d.HexData)), processed.length)

/-- Is `c` a hex digit? -/
def isHexDigit (c : Char) : Bool :=
  ('0' ≤ c ∧ c ≤ '9') ∨ ('a' ≤ c ∧ c ≤ 'f') ∨ ('A' ≤ c ∧ c ≤ 'F')

/-- `strtoul(s, nullptr, 16)` on a string: accumulate leading hex digits. -/
def strtoulHexAux : List Char → Nat → Nat
  | [], acc => acc
  | c :: r, acc =>
    if isHexDigit c then strtoulHexAux r (acc * 16 + hexDigitVal c) else acc

/-- `strtoul` base 16 of a string, truncated into the u32 `nBits`. -/
def strtoulHex (s : String) : Nat := strtoulHexAux s.data 0

/-- `loadFromTemplate` (btcLike.h lines 170-258) on a validated template.
Mirrors the source statement by statement: height and reward from the
template; SegWit detection; the filter/checker choice with BOTH boolean
results discarded (lines 224-227); the two grafts; the witness commitment
(only able to fail there); the header fill with a null Merkle root and zero
nonce; the coinbase build; and the transaction collection. -/
def loadFromTemplate (hashF : List Nat → List Nat) (miningCfg : MiningConfig)
    (ticker : String) (w : WorkState) (tmpl : TemplateDoc) :
    Option WorkState :=
  let w1 := { w with Height_ := tmpl.height, BlockReward_ := tmpl.coinbasevalue }
  let segwit := isSegwitEnabled tmpl.transactions
  let txFilter := miningCfg.TxNumLimit ≠ 0 ∧
    tmpl.transactions.length > miningCfg.TxNumLimit
  let needSortByHash := ticker = "BCHN" ∨ ticker = "BCHABC"
  let filtered :=
    if txFilter then
      let r := transactionFilter tmpl.transactions miningCfg.TxNumLimit
        w1.BlockReward_ needSortByHash
      (r.snd.fst, r.snd.snd)
    else
      ((transactionChecker tmpl.transactions).2, w1.BlockReward_)
  let processed := filtered.1
  let w2 := { w1 with BlockReward_ := filtered.2, SegwitEnabled := segwit }
  let dr := processCoinbaseDevReward tmpl w2.DevFee w2.DevScriptPubKey
  let mf := processMinerFund tmpl w2.BlockReward_ dr.1 dr.2
  let w3 := { w2 with
    BlockReward_ := mf.1
    DevFee := mf.snd.fst
    DevScriptPubKey := mf.snd.snd }
  let wc :=
    if segwit then calculateWitnessCommitment hashF tmpl txFilter processed
    else some w3.WitnessCommitment
  match wc with
  | none => none
  | some commitment =>
    let header : BlockHeader :=
      { nVersion := tmpl.version
      , hashPrevBlock := setHex tmpl.previousblockhash
      , hashMerkleRoot := zeros 32
      , nTime := tmpl.curtime
      , nBits := strtoulHex tmpl.bits % 2 ^ 32
      , nNonce := 0 }
    let w4 := { w3 with
      Header := header
      JobVersion := header.nVersion
      WitnessCommitment := commitment }
    let cb := buildCoinbaseTx w4 [] miningCfg
    let ct := collectTransactions processed
    some { w4 with
      CBTxLegacy_ := cb.snd.fst
      CBTxWitness_ := cb.snd.snd
      TxHexData := ct.1
      TxNum_ := ct.2 }

/-! ### `getDifficulty` (btcLike.h lines 19-37)

Only the loop structure is embedded: the `double` accumulator does not
influence control flow, which depends on the integer `nShift` alone.  Each
loop returns the final `nShift` together with its iteration count. -/

/-- The first while loop: `while (nShift < 29) { dDiff *= 256; nShift++; }`. -/
def diffLoopUp (n : Nat) : Nat × Nat :=
  if n < 29 then
    let r := diffLoopUp (n + 1)
    (r.1, r.2 + 1)
  else (n, 0)
termination_by 29 - n

/-- The second while loop: `while (nShift > 29) { dDiff /= 256; nShift--; }`. -/
def diffLoopDown (n : Nat) : Nat × Nat :=
  if 29 < n then
    let r := diffLoopDown (n - 1)
    (r.1, r.2 + 1)
  else (n, 0)
termination_by n

/-- The `nShift` initialization: `(bits >> 24) & 0xff` on a u32. -/
def diffShift (bits : Nat) : Nat := bits / 2 ^ 24 % 256

/-- Total loop iterations performed by `getDifficulty bits`: the first loop
runs on the initial shift, the second on the shift the first loop left. -/
def getDifficultySteps (bits : Nat) : Nat :=
  let up := diffLoopUp (diffShift bits)
  let down := diffLoopDown up.1
  up.2 + down.2

/-! ### Derived views and amended-claim definitions -/

/-- The fee sum of a template prefix (over present `fee` members). -/
def feeSum (txs : List TxJson) : Int :=
  (txs.map (fun t => t.fee.getD 0)).sum

/-- Does the entry's hex payload decode as a transaction consuming the
whole buffer? -/
def txDecodes (t : TxJson) : Bool :=
  (decodeTxAll (hexToBytes (t.data.getD emptyString).data)).isSome

/-- The `DependsOn` values as computed by the first two passes of
`transactionFilter` (the reward argument does not influence them). -/
def filterDependsOn (txs : List TxJson) : Option (List (Option Nat)) :=
  match pass1 txs 0 [] [] 0 with
  | (none, _) => none
  | (some (_, m), _) => pass2 m txs

/-- The amended dependency rule: the index mapped from the LAST input whose
`previousOutputHash` has an in-template match (`none` when no input
matches). -/
def lastMatchDependsOn (m : List (List Nat × Nat)) (ins : List TxIn) :
    Option Nat :=
  ins.reverse.findSome? (fun txin => mapFind m txin.previousOutputHash)

/-- The claimed dependency rule of the spec: the index mapped from the FIRST
matching input. -/
def firstMatchDependsOn (m : List (List Nat × Nat)) (ins : List TxIn) :
    Option Nat :=
  ins.findSome? (fun txin => mapFind m txin.previousOutputHash)

/-! ### Concrete template data used by witnesses and counterexamples -/

/-- A decodable transaction: one input spending an out-of-template hash
(little-endian `aa`), empty scriptSig, no outputs. -/
def dataTx1 : String := "0100000001aa000000000000000000000000000000000000000000000000000000000000000000000000ffffffff0000000000"

/-- A decodable two-input transaction: the first input spends txid 1, the
second spends txid 2 (both little-endian). -/
def dataTx2 : String := "010000000201000000000000000000000000000000000000000000000000000000000000000000000000ffffffff02000000000000000000000000000000000000000000000000000000000000000000000000ffffffff0000000000"

/-- Display txid 1. -/
def txidHex1 : String := "0000000000000000000000000000000000000000000000000000000000000001"

/-- Display txid 2. -/
def txidHex2 : String := "0000000000000000000000000000000000000000000000000000000000000002"

/-- Display txid 3. -/
def txidHex3 : String := "0000000000000000000000000000000000000000000000000000000000000003"

/-- An undecodable payload (a lone zero byte). -/
def dataBad : String := "00"

/-- A previous-block hash for example templates. -/
def prevHex : String := "1111111111111111111111111111111111111111111111111111111111111111"

/-- Template entries: three decodable independent transactions with fees
5, 7 and 11. -/
def exTxs3 : List TxJson :=
  [ { data := some dataTx1, txid := some txidHex1, fee := some 5 }
  , { data := some dataTx1, txid := some txidHex2, fee := some 7 }
  , { data := some dataTx1, txid := some txidHex3, fee := some 11 } ]

/-- Template for the dependency counterexample: entries 0 and 1 are
independent, entry 2 spends entry 0's txid with its first input and entry
1's txid with its second input. -/
def exTxsDep : List TxJson :=
  [ { data := some dataTx1, txid := some txidHex1, fee := some 5 }
  , { data := some dataTx1, txid := some txidHex2, fee := some 7 }
  , { data := some dataTx2, txid := some txidHex3, fee := some 11 } ]

/-- A valid entry with fee 5. -/
def exEntryFee5 : TxJson :=
  { data := some dataTx1, txid := some txidHex1, fee := some 5 }

/-- An entry missing its `fee` member. -/
def exEntryNoFee : TxJson :=
  { data := some dataTx1, txid := some txidHex2, fee := none }

/-- An entry whose payload does not decode. -/
def exEntryBad : TxJson :=
  { data := some dataBad, txid := some txidHex2, fee := some 7 }

/-- Template whose second entry is missing its `fee` member. -/
def exTxsNoFee : List TxJson := [exEntryFee5, exEntryNoFee]

/-- Template whose second entry does not decode. -/
def exTxsBadData : List TxJson := [exEntryFee5, exEntryBad]

/-- A mining configuration used by the examples. -/
def exCfg : MiningConfig :=
  { TxNumLimit := 0, FixedExtraNonceSize := 8, MutableExtraNonceSize := 4 }

/-- A ready work object with a 20-byte address. -/
def exWork : WorkState := workTyCtor true (zeros 20) []

/-- A trivial validated template with no transactions. -/
def exTmpl0 : TemplateDoc :=
  { height := 1000
  , version := 0x20000000
  , previousblockhash := prevHex
  , curtime := 1234567
  , bits := "1d00ffff"
  , coinbasevalue := 50
  , transactions := [] }

/-- The template for the checker-path failure: one undecodable transaction,
count within the cap. -/
def exTmplBad : TemplateDoc :=
  { height := 1000
  , version := 0x20000000
  , previousblockhash := prevHex
  , curtime := 1234567
  , bits := "1d00ffff"
  , coinbasevalue := 50
  , transactions := [ { data := some dataBad, txid := some txidHex1, fee := some 1 } ] }

/-- A stand-in double-SHA-256 for examples (the hash values never matter to
the claims). -/
def exHashF : List Nat → List Nat := fun _ => zeros 32

/-- Work state for the DevFee counterexample: negative dev fee, no
SegWit. -/
def exWorkNegDev : WorkState := { exWork with DevFee := -1, BlockReward_ := 50 }

/-- Work state for the oversize-scriptSig counterexample: a 250-byte
coinbase message. -/
def exWorkBigMsg : WorkState :=
  { exWork with Height_ := 1, CoinbaseMessage_ := List.replicate 250 0xAA }

/-- Work state with small coinbase message for the offsets witness. -/
def exWorkSmall : WorkState :=
  { exWork with
    Height_ := 700000
    BlockReward_ := 625000000
    CoinbaseMessage_ := [0x2F, 0x70, 0x6F, 0x6F, 0x6C, 0x2F] }

/-- The scratch scriptSig contents before the extranonce reservation:
BIP-34 height, coinbase extra data, coinbase message. -/
def cbScriptSigBase (w : WorkState) (cbData : List Nat) : List Nat :=
  serializeForCoinbase w.Height_ ++ cbData ++ w.CoinbaseMessage_

/-- The reserved extranonce region size. -/
def extraNonceLen (cfg : MiningConfig) : Nat :=
  cfg.FixedExtraNonceSize + cfg.MutableExtraNonceSize

/-- The BTC ticker string. -/
def tickerBTC : String := "BTC"

/-- A work whose header hashes have the proper 32-byte size (as any loaded
work has). -/
def exWork7 : WorkState :=
  { exWork with
    Header :=
      { nVersion := 0x20000000
      , hashPrevBlock := zeros 32
      , hashMerkleRoot := zeros 32
      , nTime := 0
      , nBits := 0
      , nNonce := 0 } }

/-- The txid → index map pass 1 builds for `exTxsDep`. -/
def exDepMap : List (List Nat × Nat) :=
  (((pass1 exTxsDep 0 [] [] 0).fst).map (fun p => p.snd)).getD []

/-! ## Theorems -/

/-- The first difficulty loop increments the shift to 29, counting one
iteration per step. -/
lemma diffLoopUp_spec_aux :
    ∀ (d n : Nat), 29 - n ≤ d → diffLoopUp n = (max n 29, 29 - n) := by
  intro d
  induction d with
  | zero =>
    intro n h
    have hn : ¬ n < 29 := by omega
    rw [diffLoopUp]
    simp only [hn, if_false, Prod.mk.injEq]
    omega
  | succ d ih =>
    intro n h
    by_cases hn : n < 29
    · rw [diffLoopUp]
      simp only [hn, if_true, ih (n + 1) (by omega), Prod.mk.injEq]
      omega
    · rw [diffLoopUp]
      simp only [hn, if_false, Prod.mk.injEq]
      omega

/-- Closed form of the first loop. -/
lemma diffLoopUp_spec (n : Nat) : diffLoopUp n = (max n 29, 29 - n) :=
  diffLoopUp_spec_aux (29 - n) n le_rfl

/-- The second difficulty loop decrements the shift to 29, counting one
iteration per step. -/
lemma diffLoopDown_spec_aux :
    ∀ (d n : Nat), n - 29 ≤ d → diffLoopDown n = (min n 29, n - 29) := by
  intro d
  induction d with
  | zero =>
    intro n h
    have hn : ¬ 29 < n := by omega
    rw [diffLoopDown]
    simp only [hn, if_false, Prod.mk.injEq]
    omega
  | succ d ih =>
    intro n h
    by_cases hn : 29 < n
    · rw [diffLoopDown]
      simp only [hn, if_true, ih (n - 1) (by omega), Prod.mk.injEq]
      omega
    · rw [diffLoopDown]
      simp only [hn, if_false, Prod.mk.injEq]
      omega

/-- Closed form of the second loop. -/
lemma diffLoopDown_spec (n : Nat) : diffLoopDown n = (min n 29, n - 29) :=
  diffLoopDown_spec_aux (n - 29) n le_rfl

/-- C10: `getDifficulty` terminates on every u32 `bits` input (both loops
are total functions here), its two while loops together execute exactly
`|((bits >> 24) & 0xFF) − 29|` iterations — hence at most that many — and
they leave the shift at 29. -/
theorem c10_getDifficulty_loop_steps (bits : Nat) :
    getDifficultySteps bits =
      (29 - diffShift bits) + (diffShift bits - 29) ∧
    (diffLoopDown (diffLoopUp (diffShift bits)).fst).fst = 29 := by
  unfold getDifficultySteps
  simp only [diffLoopUp_spec, diffLoopDown_spec]
  omega

/-- C6 (amended): a mining address whose size differs from the chain's
address size leaves the work marked uninitialized, but `ready()` only
reports whether the backend pointer is non-null — it is not affected by the
mismatch. -/
theorem c6_address_size_mismatch (hasBackend : Bool) (addr msg : List Nat)
    (h : addr.length ≠ addressSize) :
    (workTyCtor hasBackend addr msg).Inited = false ∧
    ready (workTyCtor hasBackend addr msg) = hasBackend := by
  unfold workTyCtor ready
  simp [h]

/-- C6 witness: a zero-length address on a work without a backend. -/
theorem c6_address_size_mismatch_witness :
    ([] : List Nat).length ≠ addressSize ∧
    (workTyCtor false [] []).Inited = false ∧
    ready (workTyCtor false [] []) = false :=
  ⟨by decide, c6_address_size_mismatch false [] [] (by decide)⟩

/-- C6 counterexample: with a non-null backend and a mis-sized mining
address the work is marked uninitialized, yet `ready()` returns true —
refuting the claim that `ready()` returns false in that situation. -/
theorem c6_ready_counterexample :
    (workTyCtor true [] []).Inited = false ∧
    ready (workTyCtor true [] []) = true := by decide

/-- C3 (amended): the coinbase built by `buildCoinbaseTx` has version 2
iff SegWit is enabled; exactly one input with null previous-output hash,
index `0xFFFFFFFF`, sequence `0xFFFFFFFF` and (iff SegWit) a witness stack
of one 32-byte zero entry; outputs in order payout / dev fee (when the dev
fee is NONZERO — the source tests `if (DevFee)`, not `> 0`) / witness
commitment (when SegWit); and lock time 0. -/
theorem c3_coinbase_structure (w : WorkState) (cbData : List Nat)
    (cfg : MiningConfig) :
    (buildCoinbaseTx w cbData cfg).fst.version =
      (if w.SegwitEnabled then 2 else 1) ∧
    (buildCoinbaseTx w cbData cfg).fst.txIn.map
      (fun i => (i.previousOutputHash, i.previousOutputIndex, i.sequence,
                 i.witnessStack)) =
      [(zeros 32, 0xFFFFFFFF, 0xFFFFFFFF,
        if w.SegwitEnabled then [zeros 32] else [])] ∧
    (buildCoinbaseTx w cbData cfg).fst.txOut =
      { value := w.BlockReward_, pkScript := p2pkhPkScript w.MiningAddress_ } ::
        ((if w.DevFee ≠ 0 then
            [{ value := w.DevFee, pkScript := w.DevScriptPubKey }]
          else []) ++
         (if w.SegwitEnabled then
            [{ value := 0, pkScript := w.WitnessCommitment }]
          else [])) ∧
    (buildCoinbaseTx w cbData cfg).fst.lockTime = 0 :=
  ⟨rfl, rfl, rfl, rfl⟩

/-- C3 counterexample: with `DevFee = −1` (not `> 0`) and SegWit disabled
the claim predicts a single payout output, but the source's `if (DevFee)`
emits the dev output as well: two outputs. -/
theorem c3_devfee_counterexample :
    ¬ ((-1 : Int) > 0) ∧ exWorkNegDev.DevFee = -1 ∧
    exWorkNegDev.SegwitEnabled = false ∧
    (buildCoinbaseTx exWorkNegDev [] exCfg).fst.txOut.length = 2 := by
  decide

/-- The dependency fold keeps the result of the latest matching input. -/
lemma computeDependsOn_or (m : List (List Nat × Nat)) :
    ∀ (ins : List TxIn) (acc : Option Nat),
      ins.foldl
        (fun acc txin =>
          match mapFind m txin.previousOutputHash with
          | some j => some j
          | none => acc) acc =
      ((ins.reverse.findSome? (fun txin => mapFind m txin.previousOutputHash)).or
        acc) := by
  intro ins
  induction ins with
  | nil => intro acc; simp
  | cons x xs ih =>
    intro acc
    simp only [List.foldl_cons, ih, List.reverse_cons, List.findSome?_append]
    cases hgx : mapFind m x.previousOutputHash with
    | none => simp [List.findSome?, hgx]
    | some j => simp [List.findSome?, hgx, Option.or_assoc]

/-- C4 (amended): `transactionFilter` sets `DependsOn[i]` to the index
matched by the LAST input whose `previousOutputHash` is an in-template txid
(the source's loop overwrites the field on every match), and to none when
no input matches. -/
theorem c4_dependsOn_is_last_match (m : List (List Nat × Nat))
    (ins : List TxIn) :
    computeDependsOn m ins = lastMatchDependsOn m ins := by
  unfold computeDependsOn lastMatchDependsOn
  rw [computeDependsOn_or]
  simp

/-- C4 counterexample: in `exTxsDep` the third entry's FIRST matching input
spends entry 0, but the filter records `DependsOn = some 1` (the last
matching input), refuting the first-input claim. -/
theorem c4_first_input_counterexample :
    filterDependsOn exTxsDep = some [none, none, some 1] ∧
    (decodeTxAll (hexToBytes dataTx2.data)).map
      (fun tx => firstMatchDependsOn exDepMap tx.txIn) = some (some 0) := by
  decide

/-- A successful first pass leaves the reward decremented by every entry's
fee. -/
lemma pass1_reward_success :
    ∀ (txs : List TxJson) (i : Nat) (tree : List TxTreeE)
      (m : List (List Nat × Nat)) (r : Int)
      (res : List TxTreeE × List (List Nat × Nat)) (r1 : Int),
      pass1 txs i tree m r = (some res, r1) → r1 = r - feeSum txs := by
  intro txs
  induction txs with
  | nil =>
    intro i tree m r res r1 h
    simp only [pass1, Prod.mk.injEq] at h
    simp [feeSum, h.2.symm]
  | cons t rest ih =>
    intro i tree m r res r1 h
    cases hf : fieldsOk t with
    | true =>
      simp only [pass1, hf, if_true] at h
      have := ih _ _ _ _ _ _ h
      simp only [feeSum, List.map_cons, List.sum_cons] at this ⊢
      omega
    | false =>
      rw [pass1] at h
      simp [hf] at h

/-- A first pass that hits a field-invalid entry stops with the reward
decremented by exactly the fees of the valid prefix. -/
lemma pass1_reward_fail :
    ∀ (pre : List TxJson) (t : TxJson) (rest : List TxJson) (i : Nat)
      (tree : List TxTreeE) (m : List (List Nat × Nat)) (r : Int),
      (∀ u ∈ pre, fieldsOk u) → fieldsOk t = false →
      pass1 (pre ++ t :: rest) i tree m r = (none, r - feeSum pre) := by
  intro pre
  induction pre with
  | nil =>
    intro t rest i tree m r _ hft
    simp [pass1, hft, feeSum]
  | cons u pre ih =>
    intro t rest i tree m r hpre hft
    have hu : fieldsOk u := hpre u (by simp)
    simp only [List.cons_append, pass1, hu, if_true, List.append_eq]
    rw [ih t rest _ _ _ _ (fun v hv => hpre v (by simp [hv])) hft]
    simp only [feeSum, List.map_cons, List.sum_cons, Prod.mk.injEq, true_and]
    omega

/-- A first pass over all-valid entries succeeds and decrements the reward
by every fee. -/
lemma pass1_all_ok :
    ∀ (txs : List TxJson) (i : Nat) (tree : List TxTreeE)
      (m : List (List Nat × Nat)) (r : Int),
      (∀ u ∈ txs, fieldsOk u) →
      ∃ res, pass1 txs i tree m r = (some res, r - feeSum txs) := by
  intro txs
  induction txs with
  | nil =>
    intro i tree m r _
    exact ⟨(tree, m), by simp [pass1, feeSum]⟩
  | cons t rest ih =>
    intro i tree m r h
    have ht : fieldsOk t := h t (by simp)
    obtain ⟨res, hres⟩ := ih (i + 1)
      (tree ++ [{ Data := mkTxData t, Fee := t.fee.getD 0 }])
      (m ++ [((mkTxData t).TxId, i)]) (r - t.fee.getD 0)
      (fun v hv => h v (by simp [hv]))
    refine ⟨res, ?_⟩
    simp only [pass1, ht, if_true]
    rw [hres]
    simp only [feeSum, List.map_cons, List.sum_cons, Prod.mk.injEq, true_and]
    omega

/-- When the entry's `data` member is present, the second pass rejects it
exactly when its payload fails to decode. -/
lemma txDeps_none_iff (m : List (List Nat × Nat)) (t : TxJson)
    (h : t.data.isSome) : txDeps m t = none ↔ txDecodes t = false := by
  obtain ⟨s, hs⟩ := Option.isSome_iff_exists.mp h
  simp only [txDeps, txDecodes, hs, Option.getD_some]
  cases hd : decodeTxAll (hexToBytes s.data) <;> simp

/-- The second pass fails when some (field-valid) entry does not decode. -/
lemma pass2_none_of_bad (m : List (List Nat × Nat)) :
    ∀ (txs : List TxJson), (∀ u ∈ txs, fieldsOk u) →
      (∃ u ∈ txs, txDecodes u = false) → pass2 m txs = none := by
  intro txs
  induction txs with
  | nil => intro _ h; simp at h
  | cons t rest ih =>
    intro hok hbad
    have ht : fieldsOk t := hok t (by simp)
    have htd : t.data.isSome := by
      simp only [fieldsOk, Bool.and_eq_true] at ht
      exact ht.1.1
    by_cases hdec : txDecodes t = false
    · have : txDeps m t = none := (txDeps_none_iff m t htd).mpr hdec
      simp [pass2, this]
    · obtain ⟨u, hu, hud⟩ := hbad
      rcases List.mem_cons.mp hu with rfl | hu2
      · exact absurd hud hdec
      · have : pass2 m rest = none :=
          ih (fun v hv => hok v (by simp [hv])) ⟨u, hu2, hud⟩
        cases hd : txDeps m t with
        | none => simp [pass2, hd]
        | some d => simp [pass2, hd, this]

/-- C9: `transactionFilter` is not atomic in its `blockReward` accumulator.
If the first invalid entry fails the field checks at index `k` (given as a
valid prefix `pre` of length `k`), the filter returns false with the reward
already decremented by the fees of the `k` entries before the failure; if
all fields are valid but some payload fails to decode, the whole first pass
has already run and the filter returns false with the reward decremented by
every entry's fee.  Neither decrement is undone. -/
theorem c9_fee_decrement_not_atomic (limit : Nat) (r : Int) (sb : Bool) :
    (∀ (pre : List TxJson) (t : TxJson) (rest : List TxJson),
       (∀ u ∈ pre, fieldsOk u) → fieldsOk t = false →
       transactionFilter (pre ++ t :: rest) limit r sb =
         (false, [], r - feeSum pre)) ∧
    (∀ (txs : List TxJson),
       (∀ u ∈ txs, fieldsOk u) → (∃ u ∈ txs, txDecodes u = false) →
       transactionFilter txs limit r sb = (false, [], r - feeSum txs)) := by
  constructor
  · intro pre t rest hpre hft
    unfold transactionFilter
    rw [pass1_reward_fail pre t rest 0 [] [] r hpre hft]
  · intro txs hok hbad
    unfold transactionFilter
    obtain ⟨res, hres⟩ := pass1_all_ok txs 0 [] [] r hok
    rw [hres]
    obtain ⟨tree, m⟩ := res
    simp [pass2_none_of_bad m txs hok hbad]

/-- C9 witness: a missing fee at index 1 loses only the first entry's fee;
an undecodable payload at index 1 loses both fees. -/
theorem c9_fee_decrement_not_atomic_witness :
    transactionFilter exTxsNoFee 3 100 false =
      (false, [], 100 - feeSum [exEntryFee5]) ∧
    transactionFilter exTxsBadData 3 100 false =
      (false, [], 100 - feeSum exTxsBadData) :=
  ⟨(c9_fee_decrement_not_atomic 3 100 false).1 [exEntryFee5] exEntryNoFee []
      (by decide) (by decide),
   (c9_fee_decrement_not_atomic 3 100 false).2 exTxsBadData (by decide)
      ⟨exEntryBad, by decide, by decide⟩⟩

/-- C1: whenever `transactionFilter` reports success, the final block reward
is the initial value minus the sum of ALL template transaction fees — the
first pass decrements unconditionally and fees of entries later dropped by
the count cap are never added back. -/
theorem c1_blockReward_minus_all_fees (txs : List TxJson) (limit : Nat)
    (r : Int) (sb : Bool) (res : List TxData) (r1 : Int)
    (h : transactionFilter txs limit r sb = (true, res, r1)) :
    r1 = r - feeSum txs := by
  unfold transactionFilter at h
  rcases hp : pass1 txs 0 [] [] r with ⟨o, rp⟩
  rw [hp] at h
  cases o with
  | none => simp at h
  | some pr =>
    obtain ⟨tree, m⟩ := pr
    cases hq : pass2 m txs with
    | none => simp [hq] at h
    | some deps =>
      simp only [hq, Prod.mk.injEq] at h
      rw [← h.2.2]
      exact pass1_reward_success txs 0 [] [] r (tree, m) rp hp

/-- C1 witness: three decodable entries with fees 5, 7 and 11 under a cap
of 2 — the filter succeeds, selects two, yet the reward drops by all 23. -/
theorem c1_blockReward_minus_all_fees_witness :
    (transactionFilter exTxs3 2 100 false).snd.snd = 100 - feeSum exTxs3 :=
  c1_blockReward_minus_all_fees exTxs3 2 100 false
    ((transactionFilter exTxs3 2 100 false).snd.fst)
    ((transactionFilter exTxs3 2 100 false).snd.snd) (by decide)

/-- C5: on the checker path (transaction count within the cap) a template
transaction that fails to decode makes `transactionChecker` return false,
but `loadFromTemplate` discards that boolean (btcLike.h line 227) and the
load still succeeds — the code contradicts the claimed (and clearly
intended) failure of the outer load. -/
theorem c5_checker_result_discarded :
    (transactionChecker exTmplBad.transactions).fst = false ∧
    (decodeTxAll (hexToBytes dataBad.data)).isNone = true ∧
    exCfg.TxNumLimit = 0 ∧
    (loadFromTemplate exHashF exCfg tickerBTC exWork exTmplBad).isSome = true := by
  decide

/-- C8: after a successful `loadFromTemplate` the header's Merkle root is
the null hash and the nonce is 0; version, previous-block hash, time and
bits come from the template's `version`, `previousblockhash`, `curtime` and
`bits`; and `mutate` (the only header mutation before a submit) keeps the
Merkle root null. -/
theorem c8_header_after_load (hashF : List Nat → List Nat)
    (cfg : MiningConfig) (ticker : String) (w : WorkState)
    (tmpl : TemplateDoc) (w1 : WorkState)
    (h : loadFromTemplate hashF cfg ticker w tmpl = some w1) :
    w1.Header.hashMerkleRoot = zeros 32 ∧ w1.Header.nNonce = 0 ∧
    w1.Header.nVersion = tmpl.version ∧
    w1.Header.hashPrevBlock = setHex tmpl.previousblockhash ∧
    w1.Header.nTime = tmpl.curtime ∧
    w1.Header.nBits = strtoulHex tmpl.bits % 2 ^ 32 ∧
    ∀ now, (mutate w1 now).Header.hashMerkleRoot = zeros 32 := by
  simp only [loadFromTemplate] at h
  split at h
  · exact absurd h (by simp)
  · rw [Option.some.injEq] at h
    subst h
    exact ⟨rfl, rfl, rfl, rfl, rfl, rfl, fun _ => rfl⟩

/-- C8 witness: the trivial template loads and the theorem's conclusions
hold for the resulting work (the mutate clause instantiated at time 5). -/
theorem c8_header_after_load_witness :
    (((loadFromTemplate exHashF exCfg tickerBTC exWork exTmpl0).getD
        default).Header.hashMerkleRoot = zeros 32) ∧
    (((loadFromTemplate exHashF exCfg tickerBTC exWork exTmpl0).getD
        default).Header.nNonce = 0) ∧
    ((mutate ((loadFromTemplate exHashF exCfg tickerBTC exWork exTmpl0).getD
        default) 5).Header.hashMerkleRoot = zeros 32) :=
  have h := c8_header_after_load exHashF exCfg tickerBTC exWork exTmpl0
    ((loadFromTemplate exHashF exCfg tickerBTC exWork exTmpl0).getD default)
    (by rfl)
  ⟨h.1, h.2.1, h.2.2.2.2.2.2 5⟩

/-- Hex rendering distributes over byte concatenation. -/
lemma bin2hexChars_append (a b : List Nat) :
    bin2hexChars (a ++ b) = bin2hexChars a ++ bin2hexChars b := by
  induction a with
  | nil => rfl
  | cons x xs ih => simp [bin2hexChars, ih]

/-- String form of the distribution law. -/
lemma bin2hexLowerCase_append (a b : List Nat) :
    bin2hexLowerCase (a ++ b) = bin2hexLowerCase a ++ bin2hexLowerCase b := by
  unfold bin2hexLowerCase
  rw [bin2hexChars_append]
  rfl

/-- Every character `hexDigitChar` produces is a lowercase hex digit. -/
lemma hexDigitChar_mem (n : Nat) : hexDigitChar n ∈ hexAlphabet := by
  unfold hexDigitChar
  by_cases h : n < hexAlphabet.length
  · have h16 : n < 16 := by
      rw [show hexAlphabet.length = 16 from by decide] at h
      exact h
    interval_cases n <;> decide
  · rw [List.getD_eq_default _ _ (by omega)]
    decide

/-- Every character of a hex rendering is a lowercase hex digit. -/
lemma mem_bin2hexChars (l : List Nat) :
    ∀ c ∈ bin2hexChars l, c ∈ hexAlphabet := by
  induction l with
  | nil => intro c hc; simp [bin2hexChars] at hc
  | cons b r ih =>
    intro c hc
    simp only [bin2hexChars, List.mem_cons] at hc
    rcases hc with rfl | rfl | hc
    · exact hexDigitChar_mem _
    · exact hexDigitChar_mem _
    · exact ih c hc

/-- C7: for a loaded work (header hashes 32 bytes, `TxHexData` collected
from the selected transactions), `buildBlock` emits exactly the
concatenation of the hex of the 80-byte serialized header, the hex of
`CompactSize(txNum + 1)`, the hex of the witness-form coinbase, and the
selected transactions' hex payloads — every generated character being a
lowercase hex digit. -/
theorem c7_buildBlock_layout (w : WorkState) (processed : List TxData)
    (h1 : w.Header.hashPrevBlock.length = 32)
    (h2 : w.Header.hashMerkleRoot.length = 32)
    (h3 : w.TxHexData = (collectTransactions processed).fst) :
    buildBlockImpl w =
      bin2hexLowerCase (serializeHeader w.Header) ++
        bin2hexLowerCase (compactSize (w.TxNum_ + 1)) ++
        bin2hexLowerCase w.CBTxWitness_.Data ++
        String.join (processed.map (fun d => d.HexData)) ∧
    (serializeHeader w.Header).length = 80 ∧
    (∀ c ∈ bin2hexChars (serializeHeader w.Header ++
        compactSize (w.TxNum_ + 1) ++ w.CBTxWitness_.Data),
      c ∈ hexAlphabet) := by
  refine ⟨?_, ?_, ?_⟩
  · unfold buildBlockImpl
    rw [bin2hexLowerCase_append, h3]
    simp [collectTransactions, String.append_assoc]
  · simp [serializeHeader, le32, h1, h2]
  · exact mem_bin2hexChars _

/-- C7 witness: a work with 32-byte header hashes and an empty selected
set. -/
theorem c7_buildBlock_layout_witness :
    (buildBlockImpl exWork7 =
      bin2hexLowerCase (serializeHeader exWork7.Header) ++
        bin2hexLowerCase (compactSize (exWork7.TxNum_ + 1)) ++
        bin2hexLowerCase exWork7.CBTxWitness_.Data ++
        String.join (([] : List TxData).map (fun d => d.HexData))) ∧
    (serializeHeader exWork7.Header).length = 80 :=
  have h := c7_buildBlock_layout exWork7 [] (by decide) (by decide) (by decide)
  ⟨h.1, h.2.1⟩

/-- CompactSize of a value below 0xFD is the single byte itself. -/
lemma compactSize_small (n : Nat) (h : n < 0xFD) : compactSize n = [n] := by
  simp [compactSize, h]

/-- For a single-input transaction with a scriptSig shorter than 0xFD
bytes, the first scriptSig starts at byte 42 of the legacy form and byte 44
of the witness form. -/
lemma gfsso_of_single (tx : Transaction) (i0 : TxIn) (hin : tx.txIn = [i0])
    (h : i0.scriptSig.length < 0xFD) :
    getFirstScriptSigOffset tx false = 42 ∧
    getFirstScriptSigOffset tx true = 44 := by
  unfold getFirstScriptSigOffset
  rw [hin]
  simp [compactSize_small _ h, compactSize_small 1 (by norm_num)]

/-- The extranonce slice of the legacy serialization of a single-input
transaction whose scriptSig ends in `n` zero bytes. -/
lemma slice_zeros_legacy (tx : Transaction) (i0 : TxIn) (base : List Nat)
    (n : Nat) (hin : tx.txIn = [i0]) (hsig : i0.scriptSig = base ++ zeros n)
    (hph : i0.previousOutputHash.length = 32)
    (hlen : base.length + n < 0xFD) :
    ((serializeTx tx false).drop (base.length + 42)).take n = zeros n := by
  have hsl : i0.scriptSig.length = base.length + n := by simp [hsig, zeros]
  have hser : serializeTx tx false =
      (le32 tx.version ++ compactSize 1 ++ i0.previousOutputHash ++
        le32 i0.previousOutputIndex ++ [i0.scriptSig.length] ++ base) ++
      (zeros n ++
        (le32 i0.sequence ++ (compactSize tx.txOut.length ++
          ((tx.txOut.map serTxOut).flatten ++ le32 tx.lockTime)))) := by
    simp only [serializeTx, Bool.false_eq_true, if_false, hin, List.map_cons,
      List.map_nil, List.flatten_cons, List.flatten_nil, List.append_nil,
      serTxIn, hsig, List.length_singleton]
    rw [← hsig, ← compactSize_small i0.scriptSig.length (by omega)]
    simp [List.append_assoc, hsig]
  rw [hser]
  rw [show base.length + 42 =
      (le32 tx.version ++ compactSize 1 ++ i0.previousOutputHash ++
        le32 i0.previousOutputIndex ++ [i0.scriptSig.length] ++ base).length
    from by
      simp [le32, hph, compactSize_small 1 (by norm_num)]
      omega]
  rw [List.drop_left]
  exact List.take_left' (by simp [zeros])

/-- The extranonce slice of the witness serialization of a single-input
transaction whose scriptSig ends in `n` zero bytes. -/
lemma slice_zeros_witness (tx : Transaction) (i0 : TxIn) (base : List Nat)
    (n : Nat) (hin : tx.txIn = [i0]) (hsig : i0.scriptSig = base ++ zeros n)
    (hph : i0.previousOutputHash.length = 32)
    (hlen : base.length + n < 0xFD) :
    ((serializeTx tx true).drop (base.length + 44)).take n = zeros n := by
  have hsl : i0.scriptSig.length = base.length + n := by simp [hsig, zeros]
  have hser : serializeTx tx true =
      (le32 tx.version ++ [0, 1] ++ compactSize 1 ++ i0.previousOutputHash ++
        le32 i0.previousOutputIndex ++ [i0.scriptSig.length] ++ base) ++
      (zeros n ++
        (le32 i0.sequence ++ (compactSize tx.txOut.length ++
          ((tx.txOut.map serTxOut).flatten ++
            (serWitnessStack i0.witnessStack ++ le32 tx.lockTime))))) := by
    simp only [serializeTx, if_true, hin, List.map_cons,
      List.map_nil, List.flatten_cons, List.flatten_nil, List.append_nil,
      serTxIn, hsig, List.length_singleton]
    rw [← hsig, ← compactSize_small i0.scriptSig.length (by omega)]
    simp [List.append_assoc, hsig]
  rw [hser]
  rw [show base.length + 44 =
      (le32 tx.version ++ [0, 1] ++ compactSize 1 ++ i0.previousOutputHash ++
        le32 i0.previousOutputIndex ++ [i0.scriptSig.length] ++ base).length
    from by
      simp [le32, hph, compactSize_small 1 (by norm_num)]
      omega]
  rw [List.drop_left]
  exact List.take_left' (by simp [zeros])

/-- C2 (amended): provided the final coinbase scriptSig (height encoding,
coinbase data, message and extranonce reservation) is shorter than 0xFD
bytes — so that its CompactSize length prefix is the single byte the
source's early `getFirstScriptSigOffset` calls assume — both stored
`ExtraNonceOffset`s are the scriptSig-local extranonce position plus
`firstScriptSigOffset` of the corresponding serialization form, and each
points inside the respective `Data` to a region of exactly
`FixedExtraNonceSize + MutableExtraNonceSize` zero bytes lying in the final
bytes of the coinbase scriptSig. -/
theorem c2_extranonce_offsets (w : WorkState) (cbData : List Nat)
    (cfg : MiningConfig)
    (hss : (cbScriptSigBase w cbData).length + extraNonceLen cfg < 0xFD) :
    (buildCoinbaseTx w cbData cfg).fst.txIn.map
        (fun i => i.scriptSig.length) =
      [(cbScriptSigBase w cbData).length + extraNonceLen cfg] ∧
    (buildCoinbaseTx w cbData cfg).snd.fst.ExtraNonceOffset =
      (cbScriptSigBase w cbData).length +
        getFirstScriptSigOffset (buildCoinbaseTx w cbData cfg).fst false ∧
    (buildCoinbaseTx w cbData cfg).snd.snd.ExtraNonceOffset =
      (cbScriptSigBase w cbData).length +
        getFirstScriptSigOffset (buildCoinbaseTx w cbData cfg).fst true ∧
    ((buildCoinbaseTx w cbData cfg).snd.fst.Data.drop
        (buildCoinbaseTx w cbData cfg).snd.fst.ExtraNonceOffset).take
        (extraNonceLen cfg) = zeros (extraNonceLen cfg) ∧
    ((buildCoinbaseTx w cbData cfg).snd.snd.Data.drop
        (buildCoinbaseTx w cbData cfg).snd.snd.ExtraNonceOffset).take
        (extraNonceLen cfg) = zeros (extraNonceLen cfg) ∧
    getFirstScriptSigOffset (buildCoinbaseTx w cbData cfg).fst false ≤
      (buildCoinbaseTx w cbData cfg).snd.fst.ExtraNonceOffset ∧
    (buildCoinbaseTx w cbData cfg).snd.fst.ExtraNonceOffset +
        extraNonceLen cfg =
      getFirstScriptSigOffset (buildCoinbaseTx w cbData cfg).fst false +
        ((cbScriptSigBase w cbData).length + extraNonceLen cfg) ∧
    getFirstScriptSigOffset (buildCoinbaseTx w cbData cfg).fst true ≤
      (buildCoinbaseTx w cbData cfg).snd.snd.ExtraNonceOffset ∧
    (buildCoinbaseTx w cbData cfg).snd.snd.ExtraNonceOffset +
        extraNonceLen cfg =
      getFirstScriptSigOffset (buildCoinbaseTx w cbData cfg).fst true +
        ((cbScriptSigBase w cbData).length + extraNonceLen cfg) := by
  have hin : (buildCoinbaseTx w cbData cfg).fst.txIn =
      [{ previousOutputHash := zeros 32
       , previousOutputIndex := 0xFFFFFFFF
       , scriptSig := cbScriptSigBase w cbData ++ zeros (extraNonceLen cfg)
       , sequence := 0xFFFFFFFF
       , witnessStack := if w.SegwitEnabled then [zeros 32] else [] }] := rfl
  have hsl : (cbScriptSigBase w cbData ++ zeros (extraNonceLen cfg)).length <
      0xFD := by
    simp only [zeros, List.length_append, List.length_replicate]
    omega
  have hg := gfsso_of_single (buildCoinbaseTx w cbData cfg).fst _ hin hsl
  have hoffL : (buildCoinbaseTx w cbData cfg).snd.fst.ExtraNonceOffset =
      (cbScriptSigBase w cbData).length + 42 := rfl
  have hoffW : (buildCoinbaseTx w cbData cfg).snd.snd.ExtraNonceOffset =
      (cbScriptSigBase w cbData).length + 44 := rfl
  refine ⟨?_, ?_, ?_, ?_, ?_, ?_, ?_, ?_, ?_⟩
  · rw [hin]
    simp [zeros]
  · rw [hoffL, hg.1]
  · rw [hoffW, hg.2]
  · rw [hoffL]
    exact slice_zeros_legacy (buildCoinbaseTx w cbData cfg).fst _
      (cbScriptSigBase w cbData) (extraNonceLen cfg) hin rfl (by simp [zeros])
      hss
  · rw [hoffW]
    exact slice_zeros_witness (buildCoinbaseTx w cbData cfg).fst _
      (cbScriptSigBase w cbData) (extraNonceLen cfg) hin rfl (by simp [zeros])
      hss
  · rw [hoffL, hg.1]
    omega
  · rw [hoffL, hg.1]
    omega
  · rw [hoffW, hg.2]
    omega
  · rw [hoffW, hg.2]
    omega

/-- C2 witness: small coinbase message and 12 reserved bytes — the slices
at both stored offsets are all-zero. -/
theorem c2_extranonce_offsets_witness :
    ((cbScriptSigBase exWorkSmall []).length + extraNonceLen exCfg < 0xFD) ∧
    (((buildCoinbaseTx exWorkSmall [] exCfg).snd.fst.Data.drop
        (buildCoinbaseTx exWorkSmall [] exCfg).snd.fst.ExtraNonceOffset).take
        (extraNonceLen exCfg) = zeros (extraNonceLen exCfg)) ∧
    (((buildCoinbaseTx exWorkSmall [] exCfg).snd.snd.Data.drop
        (buildCoinbaseTx exWorkSmall [] exCfg).snd.snd.ExtraNonceOffset).take
        (extraNonceLen exCfg) = zeros (extraNonceLen exCfg)) :=
  have h := c2_extranonce_offsets exWorkSmall [] exCfg (by decide)
  ⟨by decide, h.2.2.2.1, h.2.2.2.2.1⟩

set_option maxRecDepth 4000 in
/-- C2 counterexample: with a 250-byte coinbase message the scriptSig
reaches 0xFD bytes, the serialized CompactSize prefix grows to three bytes,
and the slice at the stored legacy offset is no longer all zeros — the
claim fails as stated (without the length bound). -/
theorem c2_offset_counterexample :
    ((cbScriptSigBase exWorkBigMsg []).length + extraNonceLen exCfg ≥ 0xFD) ∧
    (((buildCoinbaseTx exWorkBigMsg [] exCfg).snd.fst.Data.drop
        (buildCoinbaseTx exWorkBigMsg [] exCfg).snd.fst.ExtraNonceOffset).take
        (extraNonceLen exCfg) ≠ zeros (extraNonceLen exCfg)) := by
  decide

end BtcLike
